import Mathlib

/-!
Shallow embedding of the OpenFAN Micro integration core
(`custom_components/openfan_micro`): the temperature-curve model,
rolling sample window, per-fan temperature controller, polling
coordinator fault/stall tracking, and the device HTTP client's
PWM-set fallback logic.  Python floats are modelled as rationals
(`ℚ`), Python ints as `ℤ`.
-/

namespace OpenFan

/-- Python's `round` (banker's rounding, half to even) on a rational,
as used by `int(round(x))` in `FanTempController.apply`. -/
def pyRound (q : ℚ) : ℤ :=
  let f : ℤ := ⌊q⌋
  let frac : ℚ := q - f
  if frac < 1/2 then f
  else if 1/2 < frac then f + 1
  else if f % 2 = 0 then f else f + 1

/-- A curve point `(temperature, pwm)` as produced by `parse_curve`. -/
abbrev CurvePoint := ℚ × ℤ

/-- The `for (t1, p1), (t2, p2) in zip(pts, pts[1:])` loop of
`FanTempController.apply` (temp_controller.py lines 233-240): scan adjacent
pairs, and at the first pair with `t1 <= temp <= t2` return `max(p1, p2)`
when `t2 == t1`, otherwise the rounded linear interpolation. -/
def findSegment (temp : ℚ) : List CurvePoint → Option ℤ
  | (t1, p1) :: (t2, p2) :: rest =>
    if t1 ≤ temp ∧ temp ≤ t2 then
      some (if t2 = t1 then max p1 p2 else pyRound (p1 + (p2 - p1) * ((temp - t1) / (t2 - t1))))
    else findSegment temp ((t2, p2) :: rest)
  | _ => none

/-- Piecewise-linear curve evaluation, as in `FanTempController.apply`
(temp_controller.py lines 226-240): clamp below the first point, clamp
above the last point, otherwise interpolate on the first bracketing
segment (falling back to the first point's pwm if no segment matches,
mirroring the loop's initial `target = pts[0][1]`). -/
def evalCurve (pts : List CurvePoint) (temp : ℚ) : ℤ :=
  match pts with
  | [] => 0
  | (t0, p0) :: rest =>
    let lst := rest.getLastD (t0, p0)
    if temp ≤ t0 then p0
    else if lst.1 ≤ temp then lst.2
    else (findSegment temp ((t0, p0) :: rest)).getD p0

/-- `pyRound` never rounds below an integer lower bound. -/
theorem le_pyRound {a : ℤ} {q : ℚ} (h : (a : ℚ) ≤ q) : a ≤ pyRound q := by
  have hf : a ≤ ⌊q⌋ := Int.le_floor.mpr h
  simp only [pyRound]
  split_ifs <;> omega

/-- `pyRound` never rounds above an integer upper bound. -/
theorem pyRound_le {b : ℤ} {q : ℚ} (h : q ≤ (b : ℚ)) : pyRound q ≤ b := by
  have hfb : ⌊q⌋ ≤ b := by
    have := Int.floor_le_floor h
    simpa using this
  have hstrict : ¬(q - ⌊q⌋ < 1/2) → ⌊q⌋ + 1 ≤ b := by
    intro hge
    have h1 : (1:ℚ)/2 ≤ q - ⌊q⌋ := le_of_not_lt hge
    have h2 : (⌊q⌋ : ℚ) < q := by linarith
    have h3 : (⌊q⌋ : ℚ) < (b : ℚ) := lt_of_lt_of_le h2 h
    have h4 : ⌊q⌋ < b := by exact_mod_cast h3
    omega
  simp only [pyRound]
  split_ifs with h1 h2 h3 <;> first | omega | exact hstrict h1

/-- Linear interpolation with ratio in `[0,1]` stays between the endpoints. -/
theorem interp_between (p1 p2 : ℤ) {r : ℚ} (h0 : 0 ≤ r) (h1 : r ≤ 1) :
    ((min p1 p2 : ℤ) : ℚ) ≤ p1 + (p2 - p1) * r ∧
      (p1 + (p2 - p1) * r : ℚ) ≤ ((max p1 p2 : ℤ) : ℚ) := by
  rcases le_total p1 p2 with hle | hle
  · rw [min_eq_left hle, max_eq_right hle]
    have : ((p1 : ℚ)) ≤ (p2 : ℚ) := by exact_mod_cast hle
    constructor <;> nlinarith
  · rw [min_eq_right hle, max_eq_left hle]
    have : ((p2 : ℚ)) ≤ (p1 : ℚ) := by exact_mod_cast hle
    constructor <;> nlinarith

/-- Any value produced by the segment-scanning loop on a curve whose pwms lie
in `[0,100]` also lies in `[0,100]`. -/
theorem findSegment_bound (temp : ℚ) :
    ∀ pts : List CurvePoint, (∀ p ∈ pts, 0 ≤ p.2 ∧ p.2 ≤ 100) →
      ∀ v, findSegment temp pts = some v → 0 ≤ v ∧ v ≤ 100
  | [], _, v, hv => by simp [findSegment] at hv
  | [_], _, v, hv => by simp [findSegment] at hv
  | (t1, p1) :: (t2, p2) :: rest, hb, v, hv => by
    have hb1 := hb (t1, p1) (by simp)
    have hb2 := hb (t2, p2) (by simp)
    rw [findSegment] at hv
    by_cases hcond : t1 ≤ temp ∧ temp ≤ t2
    · rw [if_pos hcond] at hv
      rcases hcond with ⟨hc1, hc2⟩
      obtain rfl : (if t2 = t1 then max p1 p2 else
          pyRound (↑p1 + (↑p2 - ↑p1) * ((temp - t1) / (t2 - t1)))) = v :=
        Option.some.inj hv
      split_ifs with heq
      · constructor
        · simp only [le_max_iff]; omega
        · simp only [max_le_iff]; omega
      · have ht12 : t1 < t2 := lt_of_le_of_ne (le_trans hc1 hc2) (Ne.symm heq)
        have hr0 : 0 ≤ (temp - t1) / (t2 - t1) :=
          div_nonneg (by linarith) (by linarith)
        have hr1 : (temp - t1) / (t2 - t1) ≤ 1 :=
          (div_le_one (by linarith)).mpr (by linarith)
        obtain ⟨hlo, hhi⟩ := interp_between p1 p2 hr0 hr1
        constructor
        · have : ((0 : ℤ) : ℚ) ≤ ↑p1 + (↑p2 - ↑p1) * ((temp - t1) / (t2 - t1)) := by
            refine le_trans ?_ hlo
            have : (0:ℤ) ≤ min p1 p2 := le_min hb1.1 hb2.1
            exact_mod_cast this
          exact le_pyRound this
        · have : (↑p1 + (↑p2 - ↑p1) * ((temp - t1) / (t2 - t1)) : ℚ) ≤ ((100 : ℤ) : ℚ) := by
            refine le_trans hhi ?_
            have : max p1 p2 ≤ (100:ℤ) := max_le hb1.2 hb2.2
            exact_mod_cast this
          exact pyRound_le this
    · rw [if_neg hcond] at hv
      exact findSegment_bound temp ((t2, p2) :: rest)
        (fun p hp => hb p (List.mem_cons_of_mem _ hp)) v hv

/-- On a curve sorted (weakly) by temperature, the segment-scanning loop
stops at segment `i` whenever `temp` lies strictly above point `i`'s
temperature and at or below point `i+1`'s, and returns the rounded linear
interpolation on that segment. -/
theorem findSegment_bracket (temp : ℚ) :
    ∀ (pts : List CurvePoint), pts.Sorted (fun a b : CurvePoint => a.1 ≤ b.1) →
      ∀ (i : ℕ) (hi : i + 1 < pts.length),
        (pts.get ⟨i, Nat.lt_of_succ_lt hi⟩).1 < temp →
        temp ≤ (pts.get ⟨i + 1, hi⟩).1 →
        findSegment temp pts =
          some (pyRound ((pts.get ⟨i, Nat.lt_of_succ_lt hi⟩).2 +
            ((pts.get ⟨i + 1, hi⟩).2 - (pts.get ⟨i, Nat.lt_of_succ_lt hi⟩).2) *
              ((temp - (pts.get ⟨i, Nat.lt_of_succ_lt hi⟩).1) /
                ((pts.get ⟨i + 1, hi⟩).1 - (pts.get ⟨i, Nat.lt_of_succ_lt hi⟩).1))))
  | [], _, i, hi, _, _ => by simp at hi
  | [_], _, i, hi, _, _ => by simp at hi
  | (t1, p1) :: (t2, p2) :: rest, hsort, 0, hi, hlt, hle => by
    simp only [List.get_eq_getElem, List.getElem_cons_zero,
      List.getElem_cons_succ] at hlt hle ⊢
    have hne : ¬(t2 = t1) := by
      intro heq
      rw [heq] at hle
      exact absurd (lt_of_lt_of_le hlt hle) (lt_irrefl t1)
    rw [findSegment, if_pos ⟨le_of_lt hlt, hle⟩, if_neg hne]
  | (t1, p1) :: (t2, p2) :: rest, hsort, (k + 1), hi, hlt, hle => by
    have hlen : k + 1 < ((t2, p2) :: rest).length := by
      simpa [Nat.succ_lt_succ_iff] using hi
    have hsort' : ((t2, p2) :: rest).Sorted (fun a b : CurvePoint => a.1 ≤ b.1) :=
      hsort.of_cons
    have hget : t2 ≤ (((t2, p2) :: rest).get ⟨k, Nat.lt_of_succ_lt hlen⟩).1 := by
      rcases Nat.eq_zero_or_pos k with rfl | hkpos
      · simp
      · have := hsort'.rel_get_of_lt
          (a := ⟨0, by omega⟩) (b := ⟨k, Nat.lt_of_succ_lt hlen⟩)
          (by simpa [Fin.lt_def] using hkpos)
        simpa using this
    have hlt' : (((t2, p2) :: rest).get ⟨k, Nat.lt_of_succ_lt hlen⟩).1 < temp := by
      simpa [List.get_eq_getElem] using hlt
    have hle' : temp ≤ (((t2, p2) :: rest).get ⟨k + 1, hlen⟩).1 := by
      simpa [List.get_eq_getElem] using hle
    have ht2 : t2 < temp := lt_of_le_of_lt hget hlt'
    rw [findSegment, if_neg (by rintro ⟨-, h2⟩; exact absurd ht2 (not_lt.mpr h2))]
    have ih := findSegment_bracket temp ((t2, p2) :: rest) hsort' k hlen hlt' hle'
    rw [ih]
    simp [List.get_eq_getElem]

/-- Curve evaluation on a non-empty curve with pwms in `[0,100]` stays in
`[0,100]`, whatever the temperature. -/
theorem evalCurve_bound (pts : List CurvePoint) (temp : ℚ) (hne : pts ≠ [])
    (hb : ∀ p ∈ pts, 0 ≤ p.2 ∧ p.2 ≤ 100) :
    0 ≤ evalCurve pts temp ∧ evalCurve pts temp ≤ 100 := by
  match pts with
  | (t0, p0) :: rest =>
    have hb0 := hb (t0, p0) (by simp)
    simp only [evalCurve]
    split_ifs with h1 h2
    · exact hb0
    · exact hb _ (List.getLastD_mem_cons _ _)
    · cases hfs : findSegment temp ((t0, p0) :: rest) with
      | none => simpa [hfs] using hb0
      | some v => simpa [hfs] using findSegment_bound temp _ hb v hfs

/-- The first point's temperature is a lower bound for every point's
temperature on a sorted curve. -/
theorem sorted_head_le (pts : List CurvePoint)
    (hsort : pts.Sorted (fun a b : CurvePoint => a.1 ≤ b.1))
    (i : ℕ) (hi : i < pts.length) (h0 : 0 < pts.length) :
    (pts.get ⟨0, h0⟩).1 ≤ (pts.get ⟨i, hi⟩).1 := by
  rcases Nat.eq_zero_or_pos i with rfl | hpos
  · exact le_refl _
  · exact hsort.rel_get_of_lt (a := ⟨0, h0⟩) (b := ⟨i, hi⟩) (by simpa [Fin.lt_def] using hpos)

/-- C1: on a non-empty curve ordered ascending by temperature (pwms in
`[0,100]`), evaluation yields the first point's pwm at or below the first
temperature, the last point's pwm at or above the last temperature, and
otherwise the linear interpolation `p1 + (p2-p1)*(t-t1)/(t2-t1)` rounded to
the nearest integer between the bracketing points (`max(p1,p2)` if
`t1 == t2`); the result lies in `[0,100]`, and on the curve
`[(45,25),(65,55),(70,100)]` evaluation at 55 yields 40. -/
theorem curve_evaluate_spec (pts : List CurvePoint) (temp : ℚ) (hne : pts ≠ [])
    (hsort : pts.Sorted (fun a b : CurvePoint => a.1 ≤ b.1))
    (hb : ∀ p ∈ pts, 0 ≤ p.2 ∧ p.2 ≤ 100) :
    (temp ≤ (pts.head hne).1 → evalCurve pts temp = (pts.head hne).2) ∧
    ((pts.head hne).1 < temp → (pts.getLast hne).1 ≤ temp →
      evalCurve pts temp = (pts.getLast hne).2) ∧
    (∀ (i : ℕ) (hi : i + 1 < pts.length) (t1 t2 : ℚ) (p1 p2 : ℤ),
      pts.get ⟨i, Nat.lt_of_succ_lt hi⟩ = (t1, p1) → pts.get ⟨i + 1, hi⟩ = (t2, p2) →
      t1 < temp → temp ≤ t2 → temp < (pts.getLast hne).1 →
      evalCurve pts temp =
        if t1 = t2 then max p1 p2
        else pyRound (p1 + (p2 - p1) * ((temp - t1) / (t2 - t1)))) ∧
    (0 ≤ evalCurve pts temp ∧ evalCurve pts temp ≤ 100) ∧
    evalCurve [(45, 25), (65, 55), (70, 100)] 55 = 40 := by
  cases pts with
  | nil => exact absurd rfl hne
  | cons hd rest =>
    obtain ⟨t0, p0⟩ := hd
    have hhead : ((t0, p0) :: rest).head hne = (t0, p0) := rfl
    have hlast : ((t0, p0) :: rest).getLast hne = rest.getLastD (t0, p0) :=
      List.getLast_eq_getLastD _ _ _
    refine ⟨?_, ?_, ?_, ?_, ?_⟩
    · intro h
      rw [hhead] at h ⊢
      simp only [evalCurve]
      rw [if_pos h]
    · intro h1 h2
      rw [hhead] at h1
      rw [hlast] at h2 ⊢
      simp only [evalCurve]
      rw [if_neg (not_le.mpr h1), if_pos h2]
    · intro i hi t1 t2 p1 p2 hget1 hget2 hlt hle hlt_last
      have hi' : i < ((t0, p0) :: rest).length := Nat.lt_of_succ_lt hi
      have ht0le : t0 ≤ t1 := by
        have h := sorted_head_le _ hsort i hi' (by simp)
        rw [hget1] at h
        simpa using h
      have hne12 : ¬(t1 = t2) := ne_of_lt (lt_of_lt_of_le hlt hle)
      rw [hlast] at hlt_last
      have hlt' : (((t0, p0) :: rest).get ⟨i, Nat.lt_of_succ_lt hi⟩).1 < temp := by
        rw [hget1]; exact hlt
      have hle' : temp ≤ (((t0, p0) :: rest).get ⟨i + 1, hi⟩).1 := by
        rw [hget2]; exact hle
      have hbr := findSegment_bracket temp _ hsort i hi hlt' hle'
      rw [hget1, hget2] at hbr
      simp only [evalCurve]
      rw [if_neg (not_le.mpr (lt_of_le_of_lt ht0le hlt)), if_neg (not_le.mpr hlt_last),
        hbr, Option.getD_some, if_neg hne12]
    · exact evalCurve_bound _ temp hne hb
    · norm_num [evalCurve, findSegment, pyRound]

/-- Witness for `curve_evaluate_spec` at the concrete curve
`[(45,25),(65,55),(70,100)]` and temperature 55. -/
theorem curve_evaluate_spec_witness :
    evalCurve [(45, 25), (65, 55), (70, 100)] 55 = 40 := by
  have hne : ([(45, 25), (65, 55), (70, 100)] : List CurvePoint) ≠ [] := by simp
  have hsort : ([(45, 25), (65, 55), (70, 100)] : List CurvePoint).Sorted
      (fun a b : CurvePoint => a.1 ≤ b.1) := by
    simp only [List.sorted_cons, List.mem_cons, List.mem_singleton]
    norm_num
  have hb : ∀ p ∈ ([(45, 25), (65, 55), (70, 100)] : List CurvePoint),
      0 ≤ p.2 ∧ p.2 ≤ 100 := by
    intro p hp
    fin_cases hp <;> norm_num
  exact (curve_evaluate_spec _ 55 hne hsort hb).2.2.2.2

/-- Value of a list of decimal digit characters, most significant first. -/
def digitsVal (cs : List Char) : ℕ :=
  cs.foldl (fun n c => n * 10 + (c.toNat - 48)) 0

/-- Parse an unsigned decimal-digit string (the digit core of Python
`int()`). -/
def parseDigits (cs : List Char) : Option ℕ :=
  if cs ≠ [] ∧ cs.all Char.isDigit then some (digitsVal cs) else none

/-- Python whitespace for `str.strip()`. -/
def isPySpace (c : Char) : Bool :=
  c = ' ' || c = '\t' || c = '\n' || c = '\r' || c.toNat = 11 || c.toNat = 12

/-- Python `str.strip()` on a character list. -/
def pyStrip (cs : List Char) : List Char :=
  ((cs.dropWhile isPySpace).reverse.dropWhile isPySpace).reverse

/-- Python `str.split(",")` on a character list. -/
def splitComma (cs : List Char) : List (List Char) :=
  cs.foldr
    (fun c acc =>
      if c = ',' then [] :: acc
      else
        match acc with
        | a :: rest => (c :: a) :: rest
        | [] => [[c]])
    [[]]

/-- Python `int(s)`: optional surrounding whitespace, optional sign, then
decimal digits (decimal-literal subset; exotic forms such as underscores
are out of the modelled grammar). -/
def pyInt (s : List Char) : Option ℤ :=
  match pyStrip s with
  | '+' :: rest => (parseDigits rest).map (fun n => (n : ℤ))
  | '-' :: rest => (parseDigits rest).map (fun n => -(n : ℤ))
  | cs => (parseDigits cs).map (fun n => (n : ℤ))

/-- Unsigned part of a decimal float literal: `digits`, `digits.`,
`.digits` or `digits.digits`, needing at least one digit overall. -/
def parseUnsignedFloat (cs : List Char) : Option ℚ :=
  let ip := cs.takeWhile Char.isDigit
  let rest := cs.drop ip.length
  match rest with
  | [] => if ip ≠ [] then some (digitsVal ip : ℚ) else none
  | '.' :: fp =>
    if fp.all Char.isDigit ∧ (ip ≠ [] ∨ fp ≠ []) then
      some ((digitsVal ip : ℚ) + (digitsVal fp : ℚ) / (10 : ℚ) ^ fp.length)
    else none
  | _ => none

/-- Python `float(s)`: optional surrounding whitespace, optional sign,
digits with an optional fractional part (decimal-literal subset; exponents
not modelled). -/
def pyFloat (s : List Char) : Option ℚ :=
  match pyStrip s with
  | '+' :: rest => parseUnsignedFloat rest
  | '-' :: rest => (parseUnsignedFloat rest).map Neg.neg
  | cs => parseUnsignedFloat cs

/-- Stable insertion into a temperature-sorted list. -/
def insertByTemp (a : CurvePoint) : List CurvePoint → List CurvePoint
  | [] => [a]
  | b :: rest => if a.1 ≤ b.1 then a :: b :: rest else b :: insertByTemp a rest

/-- Stable sort by temperature (Python's `list.sort(key=lambda x: x[0])`). -/
def sortByTemp (l : List CurvePoint) : List CurvePoint :=
  l.foldr insertByTemp []

/-- `parse_curve` (temp_controller.py lines 39-50): split on commas, strip,
keep `temp=pwm` segments whose pieces parse, clamp pwm to `[0,100]`, sort
ascending by temperature. -/
def parse_curve (txt : String) : List CurvePoint :=
  let parts := ((splitComma txt.toList).map pyStrip).filter (fun p => p ≠ [])
  let pts := parts.filterMap (fun part =>
    if part.contains '=' then
      let t := part.takeWhile (fun c => c ≠ '=')
      let pct := part.drop (t.length + 1)
      match pyFloat (pyStrip t), pyInt (pyStrip pct) with
      | some tv, some pv => some ((tv, max 0 (min 100 pv)) : CurvePoint)
      | _, _ => none
    else none)
  sortByTemp pts

/-- Resolved per-fan options, the result of
`FanTempController._get_fan_options` (merged global / profile / per-fan
configuration, supplied by the options callback). -/
structure FanOptions where
  min_pwm : ℤ
  min_pwm_calibrated : Bool
  temp_entity : String
  temp_curve : String
  temp_integrate_seconds : ℤ
  temp_update_min_interval : ℤ
  temp_deadband_pct : ℤ
  profile : String
  deriving DecidableEq

/-- `FanControllerState` (temp_controller.py lines 53-70). -/
structure FanControllerState where
  fan_index : ℤ
  active : Bool
  temp_entity : String
  temp_curve : String
  profile : String
  temp_integrate_seconds : ℤ
  temp_update_min_interval : ℤ
  temp_deadband_pct : ℤ
  min_pwm : ℤ
  min_pwm_calibrated : Bool
  temp_avg : Option ℚ
  last_target_pwm : Option ℤ
  last_applied_pwm : Option ℤ
  last_apply_ts : ℚ
  deriving DecidableEq

/-- The dataclass defaults of `FanControllerState`. -/
def FanControllerState.init (fan_index : ℤ) : FanControllerState :=
  ⟨fan_index, false, "", "", "", 30, 10, 3, 0, false, none, none, none, 0⟩

/-- Append to the temperature deque (`maxlen=512`): evict the oldest sample
when the buffer is full. -/
def bufAppend (buf : List (ℚ × ℚ)) (s : ℚ × ℚ) : List (ℚ × ℚ) :=
  if buf.length < 512 then buf ++ [s] else buf.drop 1 ++ [s]

/-- The `while` pruning loop of `FanTempController._averaged_temp`
(temp_controller.py line 163-164): pop from the left while the head is
strictly older than the cutoff. -/
def pruneBuf (cutoff : ℚ) : List (ℚ × ℚ) → List (ℚ × ℚ)
  | [] => []
  | (t, v) :: rest => if t < cutoff then pruneBuf cutoff rest else (t, v) :: rest

/-- `FanTempController._averaged_temp` (temp_controller.py lines 160-167):
prune samples older than `now - max(5, integrate_seconds)` (a persistent
side effect, returned here as the first component), then average what is
left, or `none` if nothing is left. -/
def averagedTemp (buf : List (ℚ × ℚ)) (now : ℚ) (integrate_seconds : ℤ) :
    List (ℚ × ℚ) × Option ℚ :=
  let cutoff := now - ((max 5 integrate_seconds : ℤ) : ℚ)
  let buf2 := pruneBuf cutoff buf
  (buf2, if buf2.isEmpty then none
         else some ((buf2.map Prod.snd).sum / (buf2.length : ℚ)))

/-- Steps 3-4 of `FanTempController.apply` (temp_controller.py lines
203-215): averaged temperature, bootstrapping one sample from the current
source reading when the window is empty.  `src` is the current value of the
external temperature entity, already converted by `float()`; `none` stands
for a missing/unknown/unavailable/non-numeric state. -/
def resolveTemp (buf : List (ℚ × ℚ)) (now : ℚ) (integrate_seconds : ℤ)
    (src : Option ℚ) : List (ℚ × ℚ) × Option ℚ :=
  let r := averagedTemp buf now integrate_seconds
  match r.2, src with
  | none, some v => averagedTemp (bufAppend r.1 (now, v)) now integrate_seconds
  | _, _ => r

/-- Steps 5-6 of `FanTempController.apply` (temp_controller.py lines
226-244): curve evaluation, then `0` stays `0`, nonzero targets are floored
to `min_pwm`, and the result is clamped to `[0,100]`. -/
def computeTarget (min_pwm : ℤ) (pts : List CurvePoint) (temp : ℚ) : ℤ :=
  let t0 := evalCurve pts temp
  let t1 := if t0 = 0 then 0 else max min_pwm t0
  max 0 (min 100 t1)

/-- The deadband check of `FanTempController.apply` (temp_controller.py line
252): `last_applied is not None and abs(target - last_applied) < max(0, dead)`. -/
def withinDeadband (last_applied : Option ℤ) (target dead : ℤ) : Bool :=
  match last_applied with
  | some la => decide (|target - la| < max 0 dead)
  | none => false

/-- The gate of `FanTempController.apply` (temp_controller.py lines 173-189):
calibrated nonzero minimum PWM, a configured temperature entity, and a
non-empty parsed curve. -/
def gateOkB (opts : FanOptions) : Bool :=
  (opts.min_pwm_calibrated && decide (0 < opts.min_pwm)) &&
    decide (opts.temp_entity ≠ "") && decide (parse_curve opts.temp_curve ≠ [])

/-- The diagnostic state refresh of `FanTempController.apply`
(temp_controller.py lines 179-186). -/
def diagState (st : FanControllerState) (opts : FanOptions) : FanControllerState :=
  { st with
    min_pwm := opts.min_pwm
    min_pwm_calibrated := opts.min_pwm_calibrated
    temp_entity := opts.temp_entity
    temp_curve := opts.temp_curve
    profile := opts.profile
    temp_integrate_seconds := opts.temp_integrate_seconds
    temp_update_min_interval := opts.temp_update_min_interval
    temp_deadband_pct := opts.temp_deadband_pct }

/-- Result of one `FanTempController.apply` call: the new controller state,
the new sample buffer, and the PWM write issued via the set-PWM callback
(`none` when no write happened). -/
structure ApplyResult where
  state : FanControllerState
  buf : List (ℚ × ℚ)
  write : Option ℤ
  deriving DecidableEq

/-- `FanTempController.apply` (temp_controller.py lines 169-279), with the
resolved options, the current source reading and the monotonic clock passed
as inputs. -/
def FanTempController.apply (st : FanControllerState) (buf : List (ℚ × ℚ))
    (opts : FanOptions) (src : Option ℚ) (now : ℚ) : ApplyResult :=
  let pts := parse_curve opts.temp_curve
  let st1 := diagState st opts
  if gateOkB opts then
    let st2 := { st1 with active := true }
    let r := resolveTemp buf now opts.temp_integrate_seconds src
    match r.2 with
    | none => ⟨st2, r.1, none⟩
    | some temp =>
      let target := computeTarget opts.min_pwm pts temp
      if withinDeadband st2.last_applied_pwm target opts.temp_deadband_pct then
        ⟨{ st2 with temp_avg := some temp, last_target_pwm := some target }, r.1, none⟩
      else if now - st2.last_apply_ts < ((max 1 opts.temp_update_min_interval : ℤ) : ℚ) then
        ⟨{ st2 with temp_avg := some temp, last_target_pwm := some target }, r.1, none⟩
      else
        ⟨{ st2 with
            temp_avg := some temp
            last_target_pwm := some target
            last_applied_pwm := some target
            last_apply_ts := now }, r.1, some target⟩
  else
    ⟨{ st1 with active := false }, buf, none⟩

/-- On a time-ordered buffer, popping old samples from the left removes
exactly the samples strictly older than the cutoff. -/
theorem pruneBuf_eq_filter (cutoff : ℚ) (buf : List (ℚ × ℚ))
    (hsort : buf.Sorted (fun a b : ℚ × ℚ => a.1 ≤ b.1)) :
    pruneBuf cutoff buf = buf.filter (fun s => cutoff ≤ s.1) := by
  induction buf with
  | nil => rfl
  | cons hd tl ih =>
    obtain ⟨t, v⟩ := hd
    rw [List.sorted_cons] at hsort
    rw [pruneBuf]
    by_cases h : t < cutoff
    · rw [if_pos h, ih hsort.2, List.filter_cons_of_neg (by simpa using not_le.mpr h)]
    · rw [if_neg h, List.filter_cons_of_pos (by simpa using not_lt.mp h)]
      congr 1
      symm
      rw [List.filter_eq_self]
      intro s hs
      have := hsort.1 s hs
      simp only [decide_eq_true_eq]
      exact le_trans (not_lt.mp h) this

/-- C7: the averaging query prunes every sample strictly older than
`now - max(5, windowSeconds)` (the pruned buffer is returned as the
persistent side effect), then yields the arithmetic mean of the remaining
samples, or nothing when none remain; on `[(t0,10),(t0+5,20)]` at
`now = t0+6` with window 10 it yields 15. -/
theorem sample_window_average_spec (buf : List (ℚ × ℚ)) (now : ℚ) (w : ℤ)
    (hsort : buf.Sorted (fun a b : ℚ × ℚ => a.1 ≤ b.1)) :
    (averagedTemp buf now w).1 =
      buf.filter (fun s => now - ((max 5 w : ℤ) : ℚ) ≤ s.1) ∧
    ((averagedTemp buf now w).2 = none ↔ (averagedTemp buf now w).1 = []) ∧
    (∀ v, (averagedTemp buf now w).2 = some v →
      v = ((averagedTemp buf now w).1.map Prod.snd).sum /
            ((averagedTemp buf now w).1.length : ℚ)) ∧
    (∀ t0 : ℚ, (averagedTemp [(t0, 10), (t0 + 5, 20)] (t0 + 6) 10).2 = some 15) := by
  refine ⟨?_, ?_, ?_, ?_⟩
  · simpa [averagedTemp] using pruneBuf_eq_filter (now - ((max 5 w : ℤ) : ℚ)) buf hsort
  · simp only [averagedTemp]
    constructor
    · intro h
      by_cases he : (pruneBuf (now - ((max 5 w : ℤ) : ℚ)) buf).isEmpty
      · simpa [List.isEmpty_iff] using he
      · rw [if_neg he] at h
        exact absurd h (by simp)
    · intro h
      rw [if_pos (by simpa [List.isEmpty_iff] using h)]
  · intro v h
    simp only [averagedTemp] at h ⊢
    by_cases he : (pruneBuf (now - ((max 5 w : ℤ) : ℚ)) buf).isEmpty
    · rw [if_pos he] at h
      exact absurd h (by simp)
    · rw [if_neg he] at h
      exact (Option.some.inj h).symm
  · intro t0
    have h5 : ¬(t0 < t0 + 6 - ((max 5 10 : ℤ) : ℚ)) := by norm_num
    simp only [averagedTemp, pruneBuf, if_neg h5]
    norm_num

/-- Witness for `sample_window_average_spec` on the concrete buffer
`[(0,10),(5,20)]` at `now = 6` with window 10. -/
theorem sample_window_average_spec_witness :
    (averagedTemp [(0, 10), (5, 20)] 6 10).2 = some 15 := by
  have hsort : ([(0, 10), (5, 20)] : List (ℚ × ℚ)).Sorted
      (fun a b : ℚ × ℚ => a.1 ≤ b.1) := by
    simp only [List.sorted_cons, List.mem_cons, List.mem_singleton]
    norm_num
  have h := (sample_window_average_spec [(0, 10), (5, 20)] 6 10 hsort).2.2.2 0
  simpa using h

/-- C3: whenever the gate fails — in particular when the resolved
`min_pwm_calibrated` flag is false, when `min_pwm` is not strictly
positive, when the temperature entity is empty, or when the parsed curve
is empty — `apply` marks the controller inactive and issues no PWM
write. -/
theorem gating_inactive_spec (st : FanControllerState) (buf : List (ℚ × ℚ))
    (opts : FanOptions) (src : Option ℚ) (now : ℚ)
    (h : opts.min_pwm_calibrated = false ∨ opts.min_pwm ≤ 0 ∨
      opts.temp_entity = "" ∨ parse_curve opts.temp_curve = []) :
    (FanTempController.apply st buf opts src now).state.active = false ∧
    (FanTempController.apply st buf opts src now).write = none := by
  have hg : gateOkB opts = false := by
    rcases h with h | h | h | h
    · simp [gateOkB, h]
    · simp [gateOkB, not_lt.mpr h]
    · simp [gateOkB, h]
    · simp [gateOkB, h]
  simp [FanTempController.apply, hg]

/-- Witness for `gating_inactive_spec`: an uncalibrated configuration is
gated. -/
theorem gating_inactive_spec_witness :
    (FanTempController.apply (FanControllerState.init 0) []
      ⟨20, false, "sensor.t", "45=25", 30, 10, 3, ""⟩ none 0).state.active = false ∧
    (FanTempController.apply (FanControllerState.init 0) []
      ⟨20, false, "sensor.t", "45=25", 30, 10, 3, ""⟩ none 0).write = none :=
  gating_inactive_spec (FanControllerState.init 0) []
    ⟨20, false, "sensor.t", "45=25", 30, 10, 3, ""⟩ none 0 (Or.inl rfl)

/-- C9: when the gate passes but no temperature sample is available even
after the bootstrap attempt, `apply` still sets the active flag, issues no
write, and leaves `last_applied_pwm`, `last_apply_ts`, `last_target_pwm`
and `temp_avg` unchanged. -/
theorem active_no_sample_spec (st : FanControllerState) (buf : List (ℚ × ℚ))
    (opts : FanOptions) (src : Option ℚ) (now : ℚ)
    (hgate : gateOkB opts = true)
    (htemp : (resolveTemp buf now opts.temp_integrate_seconds src).2 = none) :
    (FanTempController.apply st buf opts src now).state.active = true ∧
    (FanTempController.apply st buf opts src now).write = none ∧
    (FanTempController.apply st buf opts src now).state.last_applied_pwm =
      st.last_applied_pwm ∧
    (FanTempController.apply st buf opts src now).state.last_apply_ts =
      st.last_apply_ts ∧
    (FanTempController.apply st buf opts src now).state.last_target_pwm =
      st.last_target_pwm ∧
    (FanTempController.apply st buf opts src now).state.temp_avg = st.temp_avg := by
  simp [FanTempController.apply, hgate, htemp, diagState]

/-- Witness for `active_no_sample_spec`: empty buffer, no source reading. -/
theorem active_no_sample_spec_witness :
    (FanTempController.apply (FanControllerState.init 0) []
      ⟨20, true, "sensor.t", "45=25", 30, 10, 3, ""⟩ none 0).state.active = true ∧
    (FanTempController.apply (FanControllerState.init 0) []
      ⟨20, true, "sensor.t", "45=25", 30, 10, 3, ""⟩ none 0).write = none := by
  have hgate : gateOkB ⟨20, true, "sensor.t", "45=25", 30, 10, 3, ""⟩ = true := by decide
  have htemp : (resolveTemp [] 0 (30 : ℤ) none).2 = none := by decide
  have h := active_no_sample_spec (FanControllerState.init 0) []
    ⟨20, true, "sensor.t", "45=25", 30, 10, 3, ""⟩ none 0 hgate htemp
  exact ⟨h.1, h.2.1⟩

/-- C8: when `apply` computes a target but suppresses the write (deadband
hit, or minimum update interval not yet elapsed), it updates `temp_avg`
and `last_target_pwm` to the new values while leaving `last_applied_pwm`
and `last_apply_ts` unchanged, and invokes no PWM write. -/
theorem suppressed_write_frame_spec (st : FanControllerState)
    (buf : List (ℚ × ℚ)) (opts : FanOptions) (src : Option ℚ) (now : ℚ) (t : ℚ)
    (hgate : gateOkB opts = true)
    (htemp : (resolveTemp buf now opts.temp_integrate_seconds src).2 = some t)
    (hsupp :
      withinDeadband st.last_applied_pwm
          (computeTarget opts.min_pwm (parse_curve opts.temp_curve) t)
          opts.temp_deadband_pct = true ∨
        now - st.last_apply_ts < ((max 1 opts.temp_update_min_interval : ℤ) : ℚ)) :
    (FanTempController.apply st buf opts src now).state.temp_avg = some t ∧
    (FanTempController.apply st buf opts src now).state.last_target_pwm =
      some (computeTarget opts.min_pwm (parse_curve opts.temp_curve) t) ∧
    (FanTempController.apply st buf opts src now).state.last_applied_pwm =
      st.last_applied_pwm ∧
    (FanTempController.apply st buf opts src now).state.last_apply_ts =
      st.last_apply_ts ∧
    (FanTempController.apply st buf opts src now).write = none := by
  cases hdb : withinDeadband st.last_applied_pwm
      (computeTarget opts.min_pwm (parse_curve opts.temp_curve) t)
      opts.temp_deadband_pct with
  | true => simp [FanTempController.apply, hgate, htemp, diagState, hdb]
  | false =>
    have hiv : now - st.last_apply_ts < ((max 1 opts.temp_update_min_interval : ℤ) : ℚ) := by
      rcases hsupp with h | h
      · rw [hdb] at h
        exact absurd h (by simp)
      · exact h
    have hiv2 : now - st.last_apply_ts < 1 ∨
        now - st.last_apply_ts < (opts.temp_update_min_interval : ℚ) := by
      push_cast at hiv
      exact lt_max_iff.mp hiv
    simp [FanTempController.apply, hgate, htemp, diagState, hdb, hiv2]

/-- Witness for `suppressed_write_frame_spec`: last applied 40, new target
40 (within the deadband of 3), so the write is suppressed but the
bookkeeping advances. -/
theorem suppressed_write_frame_spec_witness :
    (FanTempController.apply
      { FanControllerState.init 0 with last_applied_pwm := some 40, last_apply_ts := 50 }
      [(100, 55)] ⟨20, true, "sensor.t", "45=25, 65=55, 70=100", 30, 10, 3, ""⟩
      none 100).write = none := by
  have hgate : gateOkB ⟨20, true, "sensor.t", "45=25, 65=55, 70=100", 30, 10, 3, ""⟩ = true := by
    decide
  have hp : parse_curve "45=25, 65=55, 70=100" = [(45, 25), (65, 55), (70, 100)] := by decide
  have htemp : (resolveTemp [(100, 55)] 100 (30 : ℤ) none).2 = some 55 := by
    norm_num [resolveTemp, averagedTemp, pruneBuf]
  have htgt : computeTarget 20 (parse_curve "45=25, 65=55, 70=100") 55 = 40 := by
    rw [hp]
    norm_num [computeTarget, evalCurve, findSegment, pyRound]
  have hsupp : withinDeadband (some 40)
      (computeTarget 20 (parse_curve "45=25, 65=55, 70=100") 55) 3 = true := by
    rw [htgt]
    decide
  have h := suppressed_write_frame_spec
    { FanControllerState.init 0 with last_applied_pwm := some 40, last_apply_ts := 50 }
    [(100, 55)] ⟨20, true, "sensor.t", "45=25, 65=55, 70=100", 30, 10, 3, ""⟩
    none 100 55 hgate htemp (Or.inl hsupp)
  exact h.2.2.2.2

/-- C2: with deadband 3, a previously applied PWM, an averaged sample and
the minimum interval elapsed, a target within 2 of the last applied PWM
never causes a write, while a target differing by exactly 3 does (the
comparison is strict `<`). -/
theorem deadband_boundary_spec (st : FanControllerState) (buf : List (ℚ × ℚ))
    (opts : FanOptions) (src : Option ℚ) (now : ℚ) (t : ℚ) (la : ℤ)
    (hgate : gateOkB opts = true)
    (htemp : (resolveTemp buf now opts.temp_integrate_seconds src).2 = some t)
    (hla : st.last_applied_pwm = some la)
    (hdead : opts.temp_deadband_pct = 3)
    (hiv : ((max 1 opts.temp_update_min_interval : ℤ) : ℚ) ≤ now - st.last_apply_ts) :
    (|computeTarget opts.min_pwm (parse_curve opts.temp_curve) t - la| ≤ 2 →
      (FanTempController.apply st buf opts src now).write = none) ∧
    (|computeTarget opts.min_pwm (parse_curve opts.temp_curve) t - la| = 3 →
      (FanTempController.apply st buf opts src now).write =
        some (computeTarget opts.min_pwm (parse_curve opts.temp_curve) t)) := by
  constructor
  · intro hd
    have hdb : withinDeadband st.last_applied_pwm
        (computeTarget opts.min_pwm (parse_curve opts.temp_curve) t)
        opts.temp_deadband_pct = true := by
      rw [hla, hdead]
      simp only [withinDeadband, decide_eq_true_eq]
      omega
    simp [FanTempController.apply, hgate, htemp, diagState, hdb]
  · intro hd
    have hdb : withinDeadband st.last_applied_pwm
        (computeTarget opts.min_pwm (parse_curve opts.temp_curve) t)
        opts.temp_deadband_pct = false := by
      rw [hla, hdead]
      simp only [withinDeadband, decide_eq_false_iff_not]
      omega
    have hiv2 : ¬(now - st.last_apply_ts < 1 ∨
        now - st.last_apply_ts < (opts.temp_update_min_interval : ℚ)) := by
      push_cast at hiv
      rw [max_le_iff] at hiv
      rintro (h | h) <;> linarith [hiv.1, hiv.2]
    simp [FanTempController.apply, hgate, htemp, diagState, hdb, hiv2]

/-- Witness for `deadband_boundary_spec`: last applied 37, computed target
40 (difference exactly 3), interval elapsed, so the write goes through. -/
theorem deadband_boundary_spec_witness :
    (FanTempController.apply
      { FanControllerState.init 0 with last_applied_pwm := some 37, last_apply_ts := 50 }
      [(100, 55)] ⟨20, true, "sensor.t", "45=25, 65=55, 70=100", 30, 10, 3, ""⟩
      none 100).write = some 40 := by
  have hgate : gateOkB ⟨20, true, "sensor.t", "45=25, 65=55, 70=100", 30, 10, 3, ""⟩ = true := by
    decide
  have hp : parse_curve "45=25, 65=55, 70=100" = [(45, 25), (65, 55), (70, 100)] := by decide
  have htemp : (resolveTemp [(100, 55)] 100 (30 : ℤ) none).2 = some 55 := by
    norm_num [resolveTemp, averagedTemp, pruneBuf]
  have htgt : computeTarget 20 (parse_curve "45=25, 65=55, 70=100") 55 = 40 := by
    rw [hp]
    norm_num [computeTarget, evalCurve, findSegment, pyRound]
  have h := deadband_boundary_spec
    { FanControllerState.init 0 with last_applied_pwm := some 37, last_apply_ts := 50 }
    [(100, 55)] ⟨20, true, "sensor.t", "45=25, 65=55, 70=100", 30, 10, 3, ""⟩
    none 100 55 37 hgate htemp rfl rfl (by norm_num)
  have h3 := h.2 (by rw [htgt]; decide)
  rw [htgt] at h3
  exact h3

/-- Per-fan stall tracking state held by `OpenFanCoordinator`
(`_stall_by_index[idx]` and `_notified_by_index[idx]`, with `.get`
defaults 0 / False). -/
structure StallState where
  count : ℤ
  notified : Bool
  deriving DecidableEq

/-- `stalled_now` (coordinator.py line 59): cached PWM above
`max(0, min_pwm)` with zero RPM. -/
def stalledNow (min_pwm pwm rpm : ℤ) : Bool :=
  decide (pwm > max 0 min_pwm) && decide (rpm = 0)

/-- One poll tick of the per-fan stall tracking (coordinator.py lines
57-80) for a single fan index, given the cached PWM and reported RPM:
returns the new per-fan state, the published `stalled` flag, and whether a
notification fired this tick. -/
def stallTick (min_pwm need pwm rpm : ℤ) (s : StallState) : StallState × Bool × Bool :=
  let now := stalledNow min_pwm pwm rpm
  let new_count := if now then s.count + 1 else 0
  let stalled_flag := decide (new_count ≥ need)
  let fired := stalled_flag && !s.notified
  let notified1 := if fired then true else s.notified
  let notified2 := if !stalled_flag then false else notified1
  (⟨new_count, notified2⟩, stalled_flag, fired)

/-- A sequence of poll ticks for one fan: from each `(pwm, rpm)`
observation, the published `stalled` flag and whether a notification
fired. -/
def stallRun (min_pwm need : ℤ) : StallState → List (ℤ × ℤ) → List (Bool × Bool)
  | _, [] => []
  | s, (pwm, rpm) :: rest =>
    let r := stallTick min_pwm need pwm rpm s
    (r.2.1, r.2.2) :: stallRun min_pwm need r.1 rest

/-- After a tick, the remembered "already notified" flag equals the flag
just published. -/
theorem stallTick_notified (min_pwm need pwm rpm : ℤ) (s : StallState) :
    (stallTick min_pwm need pwm rpm s).1.notified =
      (stallTick min_pwm need pwm rpm s).2.1 := by
  simp only [stallTick]
  cases hf : decide ((if stalledNow min_pwm pwm rpm then s.count + 1 else 0) ≥ need) with
  | false => simp
  | true => cases s.notified <;> simp

/-- A tick fires exactly when its flag is up and the carried state was not
yet notified. -/
theorem stallTick_fired (min_pwm need pwm rpm : ℤ) (s : StallState) :
    (stallTick min_pwm need pwm rpm s).2.2 =
      ((stallTick min_pwm need pwm rpm s).2.1 && !s.notified) := by
  simp [stallTick]

/-- The first tick of a run fires exactly when its flag is up and the
carried state was not yet notified. -/
theorem stallRun_head (min_pwm need : ℤ) (s : StallState) (pwm rpm : ℤ)
    (rest : List (ℤ × ℤ)) :
    ∀ hne : stallRun min_pwm need s ((pwm, rpm) :: rest) ≠ [],
      ((stallRun min_pwm need s ((pwm, rpm) :: rest)).head hne).2 =
        (((stallRun min_pwm need s ((pwm, rpm) :: rest)).head hne).1 && !s.notified) := by
  intro hne
  simp [stallRun, stallTick]

/-- Along any run, each tick after the first fires exactly on the rising
edge of the stalled flag. -/
theorem stallRun_chain (min_pwm need : ℤ) :
    ∀ (obs : List (ℤ × ℤ)) (s : StallState),
      (stallRun min_pwm need s obs).Chain' (fun a b => b.2 = (b.1 && !a.1))
  | [], _ => List.chain'_nil
  | (pwm, rpm) :: rest, s => by
    rw [stallRun]
    rw [List.chain'_cons']
    refine ⟨?_, stallRun_chain min_pwm need rest _⟩
    intro b hb
    cases rest with
    | nil => simp [stallRun] at hb
    | cons o rest2 =>
      obtain ⟨pwm2, rpm2⟩ := o
      rw [stallRun] at hb
      simp only [List.head?_cons, Option.mem_def, Option.some.injEq] at hb
      subst hb
      rw [stallTick_fired, stallTick_notified]

/-- C4: on each poll tick a fan is `stalledNow` exactly when its cached
PWM exceeds `min_pwm` with zero RPM; the consecutive counter increments on
`stalledNow` and resets otherwise; the stalled flag is set exactly when
the counter reaches the threshold; and along any run started from the
initial per-fan state, a notification fires exactly on the rising edge of
the stalled flag — never again while the flag stays set, and any
flag-false tick re-arms the notification. -/
theorem stall_detection_spec (min_pwm need : ℤ) (hmp : 0 ≤ min_pwm) :
    (∀ pwm rpm, stalledNow min_pwm pwm rpm = true ↔ (min_pwm < pwm ∧ rpm = 0)) ∧
    (∀ pwm rpm s, (stallTick min_pwm need pwm rpm s).1.count =
      if stalledNow min_pwm pwm rpm then s.count + 1 else 0) ∧
    (∀ pwm rpm s, ((stallTick min_pwm need pwm rpm s).2.1 = true ↔
      need ≤ (stallTick min_pwm need pwm rpm s).1.count)) ∧
    (∀ obs : List (ℤ × ℤ),
      (∀ hne : stallRun min_pwm need ⟨0, false⟩ obs ≠ [],
        ((stallRun min_pwm need ⟨0, false⟩ obs).head hne).2 =
          ((stallRun min_pwm need ⟨0, false⟩ obs).head hne).1) ∧
      (stallRun min_pwm need ⟨0, false⟩ obs).Chain'
        (fun a b => b.2 = (b.1 && !a.1))) := by
  refine ⟨?_, ?_, ?_, ?_⟩
  · intro pwm rpm
    simp only [stalledNow, Bool.and_eq_true, decide_eq_true_eq]
    omega
  · intro pwm rpm s
    simp [stallTick]
  · intro pwm rpm s
    simp [stallTick]
  · intro obs
    refine ⟨?_, stallRun_chain min_pwm need obs ⟨0, false⟩⟩
    intro hne
    cases obs with
    | nil => exact absurd rfl hne
    | cons o rest =>
      obtain ⟨pwm, rpm⟩ := o
      have h := stallRun_head min_pwm need ⟨0, false⟩ pwm rpm rest hne
      simpa using h

/-- Witness for `stall_detection_spec`: with `min_pwm = 0` and threshold 3,
a fan at PWM 50 and RPM 0 for three ticks raises the flag and fires once;
one healthy tick re-arms, and the next three-stall run fires again. -/
theorem stall_detection_spec_witness :
    (0 : ℤ) ≤ 0 ∧
    stallRun 0 3 ⟨0, false⟩
        [(50, 0), (50, 0), (50, 0), (50, 0), (50, 1200), (50, 0), (50, 0), (50, 0)] =
      [(false, false), (false, false), (true, true), (true, false), (false, false),
        (false, false), (false, false), (true, true)] ∧
    List.Chain' (fun a b : Bool × Bool => b.2 = (b.1 && !a.1))
      (stallRun 0 3 ⟨0, false⟩
        [(50, 0), (50, 0), (50, 0), (50, 0), (50, 1200), (50, 0), (50, 0), (50, 0)]) :=
  ⟨le_refl 0, by decide,
    ((stall_detection_spec 0 3 (le_refl 0)).2.2.2
      [(50, 0), (50, 0), (50, 0), (50, 0), (50, 1200), (50, 0), (50, 0), (50, 0)]).2⟩

/-- Failure tracking held by `OpenFanCoordinator` (`_consecutive_failures`,
`_forced_unavailable`, `_last_error`). -/
structure FaultState where
  consecutive_failures : ℤ
  forced_unavailable : Bool
  last_error : Option String
  deriving DecidableEq

/-- The coordinator's `__init__` values (coordinator.py lines 27-33). -/
def FaultState.init : FaultState := ⟨0, false, none⟩

/-- The `except` arm of `_async_update_data` (coordinator.py lines
96-105): record the error, bump the failure counter, force unavailability
at the threshold. -/
def coordFailTick (fail_thresh : ℤ) (err : String) (s : FaultState) : FaultState :=
  let failures := s.consecutive_failures + 1
  { consecutive_failures := failures
    forced_unavailable :=
      if failures ≥ fail_thresh then true else s.forced_unavailable
    last_error := some err }

/-- The success arm of `_async_update_data` (coordinator.py lines 38-41):
clear the failure gating. -/
def coordSuccessTick (s : FaultState) : FaultState :=
  { s with consecutive_failures := 0, forced_unavailable := false, last_error := none }

/-- One `_async_update_data` tick as seen by the host coordinator: the
device fetch either yields data or raises; a raise becomes an
`UpdateFailed` propagated to the caller. -/
def coordTick {α : Type} (fail_thresh : ℤ) (s : FaultState)
    (fetch : Except String α) : FaultState × Except String α :=
  match fetch with
  | .ok d => (coordSuccessTick s, .ok d)
  | .error e =>
    (coordFailTick fail_thresh e s,
      .error ("Failed to update OpenFAN Micro: " ++ e))

/-- Modelled from the spec: the host runtime's `DataUpdateCoordinator`
(not part of this repository) keeps the previously published snapshot when
`_async_update_data` raises `UpdateFailed`, and swaps in the returned data
on success. -/
def publishStep {α : Type} (snap : Option α) (r : Except String α) : Option α :=
  match r with
  | .ok d => some d
  | .error _ => snap

/-- C5: a failed poll increments the failure counter, records the error,
forces unavailability exactly when the counter has reached the threshold
(three consecutive failures with threshold 3), fails the tick to its
caller and leaves the published snapshot untouched; one later success
resets the counter, clears forced-unavailable and clears the error. -/
theorem coordinator_failure_spec {α : Type} (th : ℤ) (s : FaultState)
    (e : String) (d : α) (snap : Option α)
    (hinv : s.forced_unavailable = true ↔ th ≤ s.consecutive_failures) :
    ((coordTick th s (Except.error (α := α) e)).1.consecutive_failures =
      s.consecutive_failures + 1) ∧
    ((coordTick th s (Except.error (α := α) e)).1.last_error = some e) ∧
    ((coordTick th s (Except.error (α := α) e)).1.forced_unavailable = true ↔
      th ≤ s.consecutive_failures + 1) ∧
    (∃ msg, (coordTick th s (Except.error (α := α) e)).2 = Except.error msg) ∧
    (publishStep snap (coordTick th s (Except.error (α := α) e)).2 = snap) ∧
    ((coordTick th s (Except.ok d)).1 = ⟨0, false, none⟩) ∧
    (publishStep snap (coordTick th s (Except.ok d)).2 = some d) ∧
    (∀ e1 e2 e3 : String,
      (coordTick 3 (coordTick 3 FaultState.init
          (Except.error (α := α) e1)).1 (Except.error (α := α) e2)).1.forced_unavailable
        = false ∧
      (coordTick 3 (coordTick 3 (coordTick 3 FaultState.init
          (Except.error (α := α) e1)).1 (Except.error (α := α) e2)).1
          (Except.error (α := α) e3)).1.forced_unavailable = true) := by
  refine ⟨rfl, rfl, ?_, ⟨_, rfl⟩, rfl, rfl, rfl, ?_⟩
  · simp only [coordTick, coordFailTick]
    constructor
    · intro h
      by_cases hge : s.consecutive_failures + 1 ≥ th
      · omega
      · rw [if_neg hge] at h
        have := hinv.mp h
        omega
    · intro h
      rw [if_pos h]
  · intro e1 e2 e3
    constructor <;> simp [coordTick, coordFailTick, FaultState.init]

/-- Witness for `coordinator_failure_spec` at a fresh coordinator with
threshold 3 and a unit snapshot. -/
theorem coordinator_failure_spec_witness :
    (coordTick 3 FaultState.init (Except.error (α := Unit) "boom")).1.consecutive_failures
      = 1 ∧
    (coordTick 3 (coordTick 3 (coordTick 3 FaultState.init
        (Except.error (α := Unit) "a")).1 (Except.error (α := Unit) "b")).1
        (Except.error (α := Unit) "c")).1.forced_unavailable = true := by
  have h := coordinator_failure_spec (α := Unit) 3 FaultState.init "boom" () none
    (by simp [FaultState.init])
  exact ⟨h.1, (h.2.2.2.2.2.2.2 "a" "b" "c").2⟩

/-- One HTTP response as returned by `OpenFanApi._get_any`: status code,
body text, and the decoded JSON body when the body is JSON (dicts modelled
as string-keyed, string-valued association lists — the fields the client
inspects are strings). -/
structure HttpResp where
  status : ℤ
  text : String
  json : Option (List (String × String))
  deriving DecidableEq

/-- Python `str.lower()` on one character (ASCII subset). -/
def pyLowerChar (c : Char) : Char :=
  if 'A' ≤ c ∧ c ≤ 'Z' then Char.ofNat (c.toNat + 32) else c

/-- Python `str.upper()` on one character (ASCII subset). -/
def pyUpperChar (c : Char) : Char :=
  if 'a' ≤ c ∧ c ≤ 'z' then Char.ofNat (c.toNat - 32) else c

/-- `OpenFanApi._is_ok_payload` (api.py lines 66-75): a JSON body whose
`status` field (lowercased, defaulting to the empty string) is
`ok`/`success`/empty, or a bare body whose stripped uppercase text is
`OK`/`SUCCESS`/empty. -/
def is_ok_payload (payload : Option (List (String × String))) (text : String) : Bool :=
  (match payload with
   | some d =>
     let val := ((d.lookup "status").getD "").toList.map pyLowerChar
     decide (val = "ok".toList ∨ val = "success".toList ∨ val = [])
   | none => false) ||
  (let t := (pyStrip text.toList).map pyUpperChar
   decide (t = "OK".toList ∨ t = "SUCCESS".toList ∨ t = []))

/-- Mutable client state touched by `set_pwm_index`: the last-known-PWM
cache (`dict.get` default 0) and the discovered fan count. -/
structure ApiState where
  last_pwm_by_index : ℤ → ℤ
  fan_count : ℤ

/-- The three per-fan set-PWM endpoint shapes, in the fixed order of
api.py lines 173-177. -/
def pwmPath (idx value : ℤ) : String :=
  "/api/v0/fan/" ++ toString idx ++ "/pwm?value=" ++ toString value

/-- Second endpoint shape tried by `set_pwm_index`. -/
def setPath (idx value : ℤ) : String :=
  "/api/v0/fan/" ++ toString idx ++ "/set?value=" ++ toString value

/-- Third (legacy) endpoint shape tried by `set_pwm_index`. -/
def legacySetPath (value : ℤ) : String :=
  "/api/v0/fan/set?value=" ++ toString value

/-- The `RuntimeError` message raised for a bad response (api.py line
184). -/
def badResponseMsg (p : String) (r : HttpResp) : String :=
  "Bad response on " ++ p ++ ": " ++ toString r.status ++ " " ++ reprStr r.text

/-- Python's `data or \x7b"status": "ok"\x7d` on the decoded JSON body. -/
def pyDictOr (j : Option (List (String × String))) : List (String × String) :=
  match j with
  | some d => if d.isEmpty then [("status", "ok")] else d
  | none => [("status", "ok")]

/-- Result of `set_pwm_index`: the returned JSON dict or the raised error
message, plus the client state afterwards. -/
structure SetPwmResult where
  outcome : Except String (List (String × String))
  state : ApiState

/-- The `for path in (...)` loop of `set_pwm_index` (api.py lines 172-191):
try each endpoint, succeed on the first attempt with HTTP status below 400
and a success body (recording the clamped value in the cache), remember
the last error otherwise, and raise the last error when every attempt
failed.  `env` maps a path to the outcome of `_get_any` on it (`.error`
for a network error/timeout). -/
def setPwmLoop (env : String → Except String HttpResp) (st : ApiState)
    (idx v : ℤ) : List String → String → SetPwmResult
  | [], last => ⟨.error last, st⟩
  | p :: rest, _ =>
    match env p with
    | .error e => setPwmLoop env st idx v rest e
    | .ok r =>
      if r.status < 400 ∧ is_ok_payload r.json r.text = true then
        ⟨.ok (pyDictOr r.json),
          ⟨fun j => if j = idx then v else st.last_pwm_by_index j,
            max st.fan_count (idx + 1)⟩⟩
      else setPwmLoop env st idx v rest (badResponseMsg p r)

/-- `OpenFanApi.set_pwm_index` (api.py lines 165-191): clamp the value to
`[0,100]`, then try the three endpoint shapes in order. -/
def set_pwm_index (env : String → Except String HttpResp) (st : ApiState)
    (index value : ℤ) : SetPwmResult :=
  let v := max 0 (min 100 value)
  setPwmLoop env st index v
    [pwmPath index v, setPath index v, legacySetPath v] ""

/-- An attempt on path `p` fails: either `_get_any` raises, or the
response has an error status or an unrecognized body. -/
def attemptFails (env : String → Except String HttpResp) (p : String) : Prop :=
  match env p with
  | .error _ => True
  | .ok r => ¬(r.status < 400 ∧ is_ok_payload r.json r.text = true)

/-- The error a failed attempt on path `p` leaves in `last_exc`. -/
def attemptErrOf (env : String → Except String HttpResp) (p : String) : String :=
  match env p with
  | .error e => e
  | .ok r => badResponseMsg p r

/-- C6: `set_pwm_index` clamps the request into `[0,100]` before doing
anything, succeeds on the first endpoint attempt whose HTTP status is
below 400 with a recognized success body (recording the clamped value in
the per-index cache and bumping the fan count), succeeds via the second
endpoint when the first returns HTTP 500 and the second bare `OK` text,
and raises the last encountered error with the cache untouched when every
attempt fails. -/
theorem set_pwm_fallback_spec (env : String → Except String HttpResp)
    (st : ApiState) (index value : ℤ) :
    (set_pwm_index env st index value =
      set_pwm_index env st index (max 0 (min 100 value))) ∧
    (∀ r, env (pwmPath index (max 0 (min 100 value))) = Except.ok r →
      r.status < 400 → is_ok_payload r.json r.text = true →
      (set_pwm_index env st index value).outcome = Except.ok (pyDictOr r.json) ∧
      (set_pwm_index env st index value).state.last_pwm_by_index index =
        max 0 (min 100 value) ∧
      (set_pwm_index env st index value).state.fan_count =
        max st.fan_count (index + 1)) ∧
    (∀ r1 r2, env (pwmPath index (max 0 (min 100 value))) = Except.ok r1 →
      r1.status = 500 →
      env (setPath index (max 0 (min 100 value))) = Except.ok r2 →
      r2.status < 400 → r2.text = "OK" → r2.json = none →
      (set_pwm_index env st index value).outcome =
        Except.ok [("status", "ok")] ∧
      (set_pwm_index env st index value).state.last_pwm_by_index index =
        max 0 (min 100 value)) ∧
    (attemptFails env (pwmPath index (max 0 (min 100 value))) →
      attemptFails env (setPath index (max 0 (min 100 value))) →
      attemptFails env (legacySetPath (max 0 (min 100 value))) →
      (set_pwm_index env st index value).outcome =
        Except.error (attemptErrOf env (legacySetPath (max 0 (min 100 value)))) ∧
      (set_pwm_index env st index value).state = st) := by
  have hclamp : max 0 (min 100 (max 0 (min 100 value))) = max 0 (min 100 value) := by
    omega
  refine ⟨?_, ?_, ?_, ?_⟩
  · simp only [set_pwm_index, hclamp]
  · intro r h1 hs hok
    simp only [set_pwm_index, setPwmLoop, h1]
    rw [if_pos ⟨hs, hok⟩]
    exact ⟨rfl, by simp, rfl⟩
  · intro r1 r2 h1 hs1 h2 hs2 ht2 hj2
    have hbad1 : ¬(r1.status < 400 ∧ is_ok_payload r1.json r1.text = true) := by
      rw [hs1]
      rintro ⟨h, -⟩
      norm_num at h
    have hok2 : is_ok_payload none r2.text = true := by
      rw [ht2]
      decide
    simp only [set_pwm_index, setPwmLoop, h1, h2, hj2]
    rw [if_neg hbad1, if_pos ⟨hs2, hok2⟩]
    refine ⟨by simp [pyDictOr], by simp⟩
  · intro f1 f2 f3
    simp only [set_pwm_index, setPwmLoop]
    rw [attemptFails] at f1 f2 f3
    rw [attemptErrOf]
    cases h1 : env (pwmPath index (max 0 (min 100 value))) with
    | error e1 =>
      cases h2 : env (setPath index (max 0 (min 100 value))) with
      | error e2 =>
        cases h3 : env (legacySetPath (max 0 (min 100 value))) with
        | error e3 => simp [setPwmLoop, h1, h2, h3]
        | ok r3 =>
          rw [h3] at f3
          simp [setPwmLoop, h1, h2, h3, if_neg f3]
      | ok r2 =>
        rw [h2] at f2
        cases h3 : env (legacySetPath (max 0 (min 100 value))) with
        | error e3 => simp [setPwmLoop, h1, h2, h3, if_neg f2]
        | ok r3 =>
          rw [h3] at f3
          simp [setPwmLoop, h1, h2, h3, if_neg f2, if_neg f3]
    | ok r1 =>
      rw [h1] at f1
      cases h2 : env (setPath index (max 0 (min 100 value))) with
      | error e2 =>
        cases h3 : env (legacySetPath (max 0 (min 100 value))) with
        | error e3 => simp [setPwmLoop, h1, h2, h3, if_neg f1]
        | ok r3 =>
          rw [h3] at f3
          simp [setPwmLoop, h1, h2, h3, if_neg f1, if_neg f3]
      | ok r2 =>
        rw [h2] at f2
        cases h3 : env (legacySetPath (max 0 (min 100 value))) with
        | error e3 => simp [setPwmLoop, h1, h2, h3, if_neg f1, if_neg f2]
        | ok r3 =>
          rw [h3] at f3
          simp [setPwmLoop, h1, h2, h3, if_neg f1, if_neg f2, if_neg f3]

/-- Witness for `set_pwm_fallback_spec`: first endpoint replies HTTP 500,
second replies bare `OK`; the call succeeds and caches the clamped
value. -/
theorem set_pwm_fallback_spec_witness :
    (set_pwm_index
      (fun p =>
        if p = pwmPath 0 40 then Except.ok ⟨500, "err", none⟩
        else if p = setPath 0 40 then Except.ok ⟨200, "OK", none⟩
        else Except.error "unreachable")
      ⟨fun _ => 0, 1⟩ 0 40).outcome = Except.ok [("status", "ok")] ∧
    (set_pwm_index
      (fun p =>
        if p = pwmPath 0 40 then Except.ok ⟨500, "err", none⟩
        else if p = setPath 0 40 then Except.ok ⟨200, "OK", none⟩
        else Except.error "unreachable")
      ⟨fun _ => 0, 1⟩ 0 40).state.last_pwm_by_index 0 = 40 := by
  have hne : setPath 0 40 ≠ pwmPath 0 40 := by decide
  have h := (set_pwm_fallback_spec
    (fun p =>
      if p = pwmPath 0 40 then Except.ok ⟨500, "err", none⟩
      else if p = setPath 0 40 then Except.ok ⟨200, "OK", none⟩
      else Except.error "unreachable")
    ⟨fun _ => 0, 1⟩ 0 40).2.2.1 ⟨500, "err", none⟩ ⟨200, "OK", none⟩
    (by simp) rfl (by simp [hne]) (by norm_num) rfl rfl
  simpa using h

/-- A JSON value as seen by `_parse_multi_fan_payload`: `num q` stands for
any value `float()` converts to `q` (numbers and numeric strings), `dict`
for a JSON object, `junk` for anything `float()` rejects. -/
inductive PyVal where
  | num (q : ℚ)
  | dict (entries : List (String × PyVal))
  | junk

/-- Python `float(raw_value)` on a JSON value, `none` when it raises. -/
def pyFloatVal : PyVal → Option ℚ
  | .num q => some q
  | _ => none

/-- Python `int()` on a float: truncation toward zero. -/
def ratTrunc (q : ℚ) : ℤ :=
  if 0 ≤ q then q.floor else -(Rat.floor (-q))

/-- The per-entry RPM of `_parse_multi_fan_payload` (api.py lines
111-114): `int(float(raw_value))`, or 0 when the conversion raises. -/
def rpmOfVal (v : PyVal) : ℤ :=
  match pyFloatVal v with
  | some q => ratTrunc q
  | none => 0

/-- Python dict assignment on an association list: overwrite in place or
append. -/
def dictInsert (k v : ℤ) : List (ℤ × ℤ) → List (ℤ × ℤ)
  | [] => [(k, v)]
  | (k2, v2) :: rest =>
    if k2 = k then (k, v) :: rest else (k2, v2) :: dictInsert k v rest

/-- The container selection of `_parse_multi_fan_payload` (api.py lines
101-103): descend into a `data` sub-object when present. -/
def containerOf (data : List (String × PyVal)) : List (String × PyVal) :=
  match data.lookup "data" with
  | some (.dict d) => d
  | _ => data

/-- One iteration of the `for raw_index, raw_value in container.items()`
loop (api.py lines 106-116). -/
def multiStep (acc : List (ℤ × ℤ)) (kv : String × PyVal) : List (ℤ × ℤ) :=
  match pyInt kv.1.toList with
  | none => acc
  | some idx =>
    if 0 ≤ idx ∧ idx ≤ 9 then dictInsert idx (max 0 (rpmOfVal kv.2)) acc else acc

/-- `OpenFanApi._parse_multi_fan_payload` (api.py lines 99-117). -/
def parse_multi_fan_payload (data : List (String × PyVal)) : List (ℤ × ℤ) :=
  (containerOf data).foldl multiStep []

/-- The fan-count update of `get_status_all` on a multi-fan payload
(api.py line 139): `max(self._fan_count, max(keys, default=0) + 1)`. -/
def fanCountAfterMulti (old : ℤ) (m : List (ℤ × ℤ)) : ℤ :=
  max old (((m.map Prod.fst).max?.getD 0) + 1)

/-- Membership in a dict after an insertion. -/
theorem dictInsert_mem (k v : ℤ) :
    ∀ (m : List (ℤ × ℤ)) (p : ℤ × ℤ), p ∈ dictInsert k v m → p = (k, v) ∨ p ∈ m
  | [], p, hp => by simpa [dictInsert] using hp
  | (k2, v2) :: rest, p, hp => by
    rw [dictInsert] at hp
    split_ifs at hp with h
    · rcases List.mem_cons.mp hp with h' | h'
      · exact Or.inl h'
      · exact Or.inr (List.mem_cons_of_mem _ h')
    · rcases List.mem_cons.mp hp with h' | h'
      · exact Or.inr (h' ▸ List.mem_cons_self _ _)
      · rcases dictInsert_mem k v rest p h' with h'' | h''
        · exact Or.inl h''
        · exact Or.inr (List.mem_cons_of_mem _ h'')

/-- Lookup in a dict after an insertion. -/
theorem dictInsert_lookup (k v k2 : ℤ) :
    ∀ m : List (ℤ × ℤ),
      (dictInsert k v m).lookup k2 = if k2 = k then some v else m.lookup k2
  | [] => by
    by_cases h : k2 = k
    · simp [dictInsert, List.lookup_cons, h]
    · have hb : (k2 == k) = false := beq_eq_false_iff_ne.mpr h
      simp [dictInsert, List.lookup_cons, hb, h]
  | (k3, v3) :: rest => by
    rw [dictInsert]
    by_cases h : k3 = k
    · rw [if_pos h]
      subst h
      by_cases h2 : k2 = k3
      · simp [List.lookup_cons, h2]
      · have hb : (k2 == k3) = false := beq_eq_false_iff_ne.mpr h2
        simp [List.lookup_cons, hb, h2]
    · rw [if_neg h]
      by_cases h2 : k2 = k3
      · have hne : ¬(k2 = k) := fun hc => h ((h2.symm.trans hc) ▸ rfl)
        subst h2
        simp [List.lookup_cons, hne]
      · have hb : (k2 == k3) = false := beq_eq_false_iff_ne.mpr h2
        have hr := dictInsert_lookup k v k2 rest
        simp [List.lookup_cons, hb, hr]

/-- Every entry the parsing loop accumulates comes from a container entry
whose key parses into its index and whose value yields its rpm. -/
theorem foldl_multiStep_mem :
    ∀ (l : List (String × PyVal)) (acc : List (ℤ × ℤ)) (p : ℤ × ℤ),
      p ∈ l.foldl multiStep acc →
      p ∈ acc ∨ ∃ kv ∈ l, pyInt kv.1.toList = some p.1 ∧ 0 ≤ p.1 ∧ p.1 ≤ 9 ∧
        p.2 = max 0 (rpmOfVal kv.2)
  | [], _, p, hp => Or.inl hp
  | kv :: rest, acc, p, hp => by
    rw [List.foldl_cons] at hp
    rcases foldl_multiStep_mem rest (multiStep acc kv) p hp with h | ⟨kv2, hkv2, hh⟩
    · cases hpi : pyInt kv.1.toList with
      | none =>
        simp only [multiStep, hpi] at h
        exact Or.inl h
      | some idx =>
        simp only [multiStep, hpi] at h
        split_ifs at h with hrange
        · rcases dictInsert_mem _ _ _ _ h with rfl | hin
          · exact Or.inr ⟨kv, List.mem_cons_self _ _,
              by simpa using hpi, hrange.1, hrange.2, rfl⟩
          · exact Or.inl hin
        · exact Or.inl h
    · exact Or.inr ⟨kv2, List.mem_cons_of_mem _ hkv2, hh⟩

/-- An index is present in the accumulated dict exactly when it was
already there or some container entry parses into it (in range). -/
theorem foldl_multiStep_lookup :
    ∀ (l : List (String × PyVal)) (acc : List (ℤ × ℤ)) (k : ℤ),
      ((l.foldl multiStep acc).lookup k ≠ none) ↔
        (acc.lookup k ≠ none ∨
          ∃ kv ∈ l, pyInt kv.1.toList = some k ∧ 0 ≤ k ∧ k ≤ 9)
  | [], acc, k => by simp
  | kv :: rest, acc, k => by
    rw [List.foldl_cons, foldl_multiStep_lookup rest (multiStep acc kv) k]
    have hstep : ((multiStep acc kv).lookup k ≠ none) ↔
        (acc.lookup k ≠ none ∨
          (pyInt kv.1.toList = some k ∧ 0 ≤ k ∧ k ≤ 9)) := by
      cases hpi : pyInt kv.1.toList with
      | none =>
        simp only [multiStep, hpi]
        simp
      | some idx =>
        simp only [multiStep, hpi]
        split_ifs with hrange
        · rw [dictInsert_lookup]
          by_cases hk : k = idx
          · subst hk
            simp [hrange.1, hrange.2]
          · simp only [if_neg hk, Option.some.injEq]
            constructor
            · exact Or.inl
            · rintro (h | ⟨hik, -⟩)
              · exact h
              · exact absurd hik.symm hk
        · simp only [Option.some.injEq]
          constructor
          · exact Or.inl
          · rintro (h | ⟨rfl, hr⟩)
            · exact h
            · exact absurd hr hrange
    rw [hstep]
    constructor
    · rintro ((h | h) | ⟨kv2, hm, hh⟩)
      · exact Or.inl h
      · exact Or.inr ⟨kv, List.mem_cons_self _ _, h⟩
      · exact Or.inr ⟨kv2, List.mem_cons_of_mem _ hm, hh⟩
    · rintro (h | ⟨kv2, hm, hh⟩)
      · exact Or.inl (Or.inl h)
      · rcases List.mem_cons.mp hm with rfl | hm2
        · exact Or.inl (Or.inr hh)
        · exact Or.inr ⟨kv2, hm2, hh⟩

/-- C10: the parsed multi-fan result holds only integer indices 0..9
(other keys silently dropped), each rpm is clamped to at least 0 (with
non-convertible values contributing 0 through `rpmOfVal`), an index is
present exactly when some container entry parses to it in range, and the
fan count derived from the payload never exceeds 10. -/
theorem multi_fan_parse_spec (data : List (String × PyVal)) (old : ℤ) :
    (∀ p ∈ parse_multi_fan_payload data,
      0 ≤ p.1 ∧ p.1 ≤ 9 ∧ 0 ≤ p.2 ∧
      ∃ kv ∈ containerOf data, pyInt kv.1.toList = some p.1 ∧
        p.2 = max 0 (rpmOfVal kv.2)) ∧
    (∀ idx : ℤ, ((parse_multi_fan_payload data).lookup idx ≠ none) ↔
      ∃ kv ∈ containerOf data, pyInt kv.1.toList = some idx ∧
        0 ≤ idx ∧ idx ≤ 9) ∧
    fanCountAfterMulti old (parse_multi_fan_payload data) ≤ max old 10 := by
  refine ⟨?_, ?_, ?_⟩
  · intro p hp
    rcases foldl_multiStep_mem (containerOf data) [] p hp with h | ⟨kv, hm, hpi, h0, h9, hval⟩
    · exact absurd h (List.not_mem_nil p)
    · exact ⟨h0, h9, hval ▸ le_max_left 0 _, kv, hm, hpi, hval⟩
  · intro idx
    rw [parse_multi_fan_payload, foldl_multiStep_lookup (containerOf data) [] idx]
    simp
  · have hkeys : ∀ a ∈ (parse_multi_fan_payload data).map Prod.fst, a ≤ 9 := by
      intro a ha
      rcases List.mem_map.mp ha with ⟨p, hp, rfl⟩
      rcases foldl_multiStep_mem (containerOf data) [] p hp with h | ⟨-, -, -, -, h9, -⟩
      · exact absurd h (List.not_mem_nil p)
      · exact h9
    have hmax : ((parse_multi_fan_payload data).map Prod.fst).max?.getD 0 ≤ 9 := by
      cases hm : ((parse_multi_fan_payload data).map Prod.fst).max? with
      | none => norm_num
      | some a =>
        have := hkeys a (List.max?_mem max_choice hm)
        simpa using this
    rw [fanCountAfterMulti]
    exact max_le_max (le_refl old) (by omega)

/-- Witness for `multi_fan_parse_spec` on the payload
`\x7b"0": 1200, "x": junk, "12": 5, "3": junk\x7d`. -/
theorem multi_fan_parse_spec_witness :
    parse_multi_fan_payload
        [("0", PyVal.num 1200), ("x", PyVal.junk), ("12", PyVal.num 5),
          ("3", PyVal.junk)] = [(0, 1200), (3, 0)] ∧
    (0 : ℤ) ≤ 3 ∧ (3 : ℤ) ≤ 9 ∧ (0 : ℤ) ≤ 0 := by
  have h := (multi_fan_parse_spec
    [("0", PyVal.num 1200), ("x", PyVal.junk), ("12", PyVal.num 5),
      ("3", PyVal.junk)] 0).1 (3, 0) (by decide)
  exact ⟨by decide, h.1, h.2.1, h.2.2.1⟩

end OpenFan
